import Mathlib

/-!
Shallow embedding of the image-generation MCP server
(panpan-image-generator-mcp-server.js) in Lean 4.

The stateful and network-bound parts of the program are modelled by
explicit oracles: the JSON parser of the runtime is a function
`String → Option Json` supplied as a parameter, the HTTP round trips are
recorded in an environment structure, and the bounded-concurrency batch
executor is sequentialized (each worker loop iteration pops one job from
the shared queue and appends exactly one result, so the number and the
multiset of results do not depend on the interleaving).
-/

namespace PanPan

/-- A JSON value, as produced by the runtime JSON parser. Numbers are
modelled as integers; the program never reads numeric response fields. -/
inductive Json where
  | null : Json
  | bool (b : Bool) : Json
  | num (n : Int) : Json
  | str (s : String) : Json
  | arr (xs : List Json) : Json
  | obj (fields : List (String × Json)) : Json

/-- Field access on a JSON object: the value of the first field with the
given key, or none (undefined) when absent or when the value is not an
object. -/
def Json.field : Json → String → Option Json
  | .obj fs, k => (fs.find? (fun p => p.1 = k)).map Prod.snd
  | _, _ => none

/-- Index access, as in choices[0]: defined only on arrays. -/
def Json.idx : Json → Nat → Option Json
  | .arr xs, n => xs.get? n
  | _, _ => none

/-- JavaScript truthiness of a possibly-undefined JSON value: undefined,
null, false, 0 and the empty string are falsy, everything else truthy. -/
def jsTruthy : Option Json → Bool
  | none => false
  | some .null => false
  | some (.bool b) => b
  | some (.num n) => n != 0
  | some (.str s) => s != ""
  | some (.arr _) => true
  | some (.obj _) => true

/-- JavaScript truthiness of a possibly-undefined string variable. -/
def strTruthy (o : Option String) : Bool := o.getD "" != ""

/-- The given JSON value viewed as a string, none otherwise. -/
def Json.asStr : Option Json → Option String
  | some (.str s) => some s
  | _ => none

/-- Strict equality of a possibly-undefined JSON value with a string
literal, as the JS triple-equal operator against a string. -/
def jsStrEq (o : Option Json) (s : String) : Bool :=
  match o with
  | some (.str t) => t == s
  | _ => false

/-- Whether sub occurs as a contiguous substring, as the JS
String.prototype.includes method (case-sensitive). -/
def containsSub : List Char → List Char → Bool
  | _, [] => true
  | [], _ :: _ => false
  | c :: rest, p :: ps => List.isPrefixOf (p :: ps) (c :: rest) || containsSub rest (p :: ps)

/-- JS s.includes(sub): case-sensitive substring test. -/
def jsIncludes (s sub : String) : Bool := containsSub s.data sub.data

/-- Replace the first occurrence of pat in s, as the JS
String.prototype.replace method with a plain string pattern. -/
def replaceFirstL (pat : List Char) : List Char → List Char
  | [] => []
  | c :: rest =>
    if List.isPrefixOf pat (c :: rest) then (c :: rest).drop pat.length
    else c :: replaceFirstL pat rest

/-- JS s.replace(pat, empty string) for a plain string pattern. -/
def replaceFirst (s pat : String) : String := String.mk (replaceFirstL pat.data s.data)

/-- JS s.trim() on the character list: strip whitespace at both ends. -/
def jsTrimL (cs : List Char) : List Char :=
  ((cs.dropWhile Char.isWhitespace).reverse.dropWhile Char.isWhitespace).reverse

/-- JS s.trim(). -/
def jsTrim (s : String) : String := String.mk (jsTrimL s.data)

/-- JS s.startsWith(pre). -/
def jsStartsWith (s pre : String) : Bool := List.isPrefixOf pre.data s.data

/-- Split a character list at every occurrence of the separator, as the
JS split method with a one-character separator: always at least one
(possibly empty) group. -/
def splitOnCharL (c : Char) : List Char → List (List Char)
  | [] => [[]]
  | x :: rest =>
    match splitOnCharL c rest with
    | [] => [[]]
    | g :: gs => if x = c then [] :: g :: gs else (x :: g) :: gs

/-- JS responseText.split with a newline separator. -/
def splitNewlines (s : String) : List String := (splitOnCharL '\n' s.data).map String.mk

/-- Characters admitted by the base64 capture class [A-Za-z0-9+/=]. -/
def isB64Char (c : Char) : Bool :=
  c.isAlpha || c.isDigit || c = '+' || c = '/' || c = '='

/-- Six-bit value of a base64 alphabet character; padding and foreign
characters yield none and are skipped by the decoder. -/
def b64Val (c : Char) : Option Nat :=
  if 'A' ≤ c && c ≤ 'Z' then some (c.toNat - 65)
  else if 'a' ≤ c && c ≤ 'z' then some (c.toNat - 97 + 26)
  else if '0' ≤ c && c ≤ '9' then some (c.toNat - 48 + 52)
  else if c = '+' then some 62
  else if c = '/' then some 63
  else none

/-- Regroup a list of six-bit values into bytes, as Buffer.from(s, base64)
does for well-formed input: four sextets to three bytes, a trailing pair
to one byte, a trailing triple to two bytes. -/
def b64Chunks : List Nat → List Nat
  | a :: b :: c :: d :: rest =>
      (a * 4 + b / 16) :: ((b % 16) * 16 + c / 4) :: ((c % 4) * 64 + d) :: b64Chunks rest
  | [a, b] => [a * 4 + b / 16]
  | [a, b, c] => [a * 4 + b / 16, (b % 16) * 16 + c / 4]
  | _ => []

/-- Buffer.from(payload, base64): decode, skipping padding characters. -/
def base64Decode (s : String) : List Nat := b64Chunks (s.data.filterMap b64Val)

/-- The anchored data-URL pattern applied to a message.images entry. The
regex requires the whole string to be data:image/ then a nonempty run
without semicolons, then ;base64, then a nonempty remainder free of line
breaks (the dot of the capture group does not match newlines and the
match is anchored at both ends); the capture is that remainder. -/
def dataUrlAnchoredPayload (s : String) : Option String :=
  let cs := s.data
  if List.isPrefixOf "data:image/".data cs then
    let rest := cs.drop 11
    let mime := rest.takeWhile (fun c => c ≠ ';')
    if mime.length = 0 then none
    else
      let after := rest.drop mime.length
      if List.isPrefixOf ";base64,".data after then
        let payload := after.drop 8
        if payload.length > 0 && payload.all (fun c => c ≠ '\n' && c ≠ '\r') then
          some (String.mk payload)
        else none
      else none
  else none

/-- One attempt of the unanchored data-URL pattern at the head of the
character list: data:image/ then a nonempty semicolon-free run, then
;base64, then a maximal nonempty run of base64 characters (the greedy
capture group). -/
def tryDataUrlAt (cs : List Char) : Option String :=
  if List.isPrefixOf "data:image/".data cs then
    let rest := cs.drop 11
    let mime := rest.takeWhile (fun c => c ≠ ';')
    if mime.length = 0 then none
    else
      let after := rest.drop mime.length
      if List.isPrefixOf ";base64,".data after then
        let payload := (after.drop 8).takeWhile isB64Char
        if payload.length > 0 then some (String.mk payload) else none
      else none
  else none

/-- Leftmost match of the unanchored data-URL pattern: the capture group
of the first position at which the pattern matches. -/
def findDataUrlPayloadL : List Char → Option String
  | [] => none
  | c :: rest =>
    match tryDataUrlAt (c :: rest) with
    | some p => some p
    | none => findDataUrlPayloadL rest

/-- fullContent.match of the data-URL pattern, capture group 1. -/
def findDataUrlPayload (s : String) : Option String := findDataUrlPayloadL s.data

/-- Case-insensitive prefix test, for the /i regex flag. -/
def lcIsPrefix : List Char → List Char → Bool
  | [], _ => true
  | _ :: _, [] => false
  | p :: ps, c :: cs => p.toLower = c.toLower && lcIsPrefix ps cs

/-- The recognized image filename extensions of the URL pattern, in
alternation order. -/
def imageExts : List (List Char) :=
  ["jpg".data, "jpeg".data, "png".data, "gif".data, "webp".data]

/-- A character the URL run class admits: anything but whitespace and a
closing parenthesis. -/
def isUrlRunChar (c : Char) : Bool := !c.isWhitespace && c ≠ ')'

/-- When the list starts with a dot followed by a recognized extension
(case-insensitively), the length of that dot-extension segment. -/
def extHere : List Char → Option Nat
  | '.' :: rest => (imageExts.find? (fun e => lcIsPrefix e rest)).map (fun e => 1 + e.length)
  | _ => none

/-- Greedy backtracking of the nonempty URL run: the largest split point
j ≤ bound, j ≥ 1, at which a dot-extension segment starts, returning the
total matched run length j plus that segment. -/
def bestUrlEnd (run : List Char) : Nat → Option Nat
  | 0 => none
  | j + 1 =>
    match extHere (run.drop (j + 1)) with
    | some k => some (j + 1 + k)
    | none => bestUrlEnd run j

/-- One attempt of the image URL pattern at the head of the character
list: http:// or https:// case-insensitively, then a nonempty run of URL
characters ending in a dot and a recognized extension; greedy, so the
latest admissible extension position within the run wins. -/
def tryUrlAt (cs : List Char) : Option String :=
  let scheme : Option Nat :=
    if lcIsPrefix "https://".data cs then some 8
    else if lcIsPrefix "http://".data cs then some 7
    else none
  match scheme with
  | none => none
  | some n =>
    let run := (cs.drop n).takeWhile isUrlRunChar
    match bestUrlEnd run run.length with
    | some m => some (String.mk (cs.take (n + m)))
    | none => none

/-- Leftmost match of the image URL pattern over the text. -/
def findImageUrlL : List Char → Option String
  | [] => none
  | c :: rest =>
    match tryUrlAt (c :: rest) with
    | some m => some m
    | none => findImageUrlL rest

/-- fullContent.match of the image URL pattern, whole match. -/
def findImageUrl (s : String) : Option String := findImageUrlL s.data

/-!  Response resolution: the mutable locals imageBase64 and fullContent
of generateImage and editImage, threaded as explicit state. -/

/-- The pair of locals written by the JSON-based extraction steps. -/
structure Extract where
  imageBase64 : Option String
  fullContent : String

/-- One iteration of the loop over the typed parts of a content array:
a text part appends part.text (or the empty string when that field is
falsy) to fullContent, an image part with a truthy inline_data sub-object
overwrites imageBase64 with inline_data.data, anything else is skipped. -/
def partStep (st : Extract) (part : Json) : Extract :=
  if jsStrEq (part.field "type") "text" then
    { st with fullContent := st.fullContent ++ ((Json.asStr (part.field "text")).getD "") }
  else if jsStrEq (part.field "type") "image" && jsTruthy (part.field "inline_data") then
    { st with imageBase64 := Json.asStr ((part.field "inline_data").bind (fun d => d.field "data")) }
  else st

/-- One iteration of the loop over message.images: an entry typed
image_url with a truthy image_url.url whose value matches the anchored
data-URL pattern overwrites the accumulator with the captured payload;
the loop has no early exit, so the last matching entry wins. -/
def imageEntryStep (acc : Option String) (img : Json) : Option String :=
  let urlField := (img.field "image_url").bind (fun u => u.field "url")
  if jsStrEq (img.field "type") "image_url" && jsTruthy (img.field "image_url")
      && jsTruthy urlField then
    match Json.asStr urlField with
    | some dataUrl =>
      match dataUrlAnchoredPayload dataUrl with
      | some payload => some payload
      | none => acc
    | none => acc
  else acc

/-- The standard-JSON extraction of generateImage and editImage: when
choices[0].message is truthy, first scan message.images when it is an
array, then, only when no image was found there, walk an array-valued
message.content with partStep; a string-valued content becomes the whole
fullContent either way. -/
def extractStandard (j : Json) : Extract :=
  let choices := j.field "choices"
  let c0 := choices.bind (fun c => c.idx 0)
  let msg := c0.bind (fun c => c.field "message")
  if jsTruthy choices && jsTruthy c0 && jsTruthy msg then
    match msg with
    | some message =>
      let images := message.field "images"
      let ib : Option String :=
        match images with
        | some (.arr imgs) => imgs.foldl imageEntryStep none
        | _ => none
      let content := message.field "content"
      if !strTruthy ib then
        match content with
        | some (.arr parts) => parts.foldl partStep { imageBase64 := ib, fullContent := "" }
        | some (.str s) => { imageBase64 := ib, fullContent := s }
        | _ => { imageBase64 := ib, fullContent := "" }
      else
        match content with
        | some (.str s) => { imageBase64 := ib, fullContent := s }
        | _ => { imageBase64 := ib, fullContent := "" }
    | none => { imageBase64 := none, fullContent := "" }
  else { imageBase64 := none, fullContent := "" }

/-- Content handling shared by the delta and message blocks of the
stream fallback: an array is walked with partStep, a string is appended
to fullContent. -/
def streamContentStep (st : Extract) : Option Json → Extract
  | some (.arr parts) => parts.foldl partStep st
  | some (.str s) => { st with fullContent := st.fullContent ++ s }
  | _ => st

/-- Processing of choices[0] of one parsed stream frame: the delta block
runs when choice.delta and its content are truthy, then the message
block runs when choice.message and its content are truthy (the two
blocks are not exclusive). -/
def streamChoiceStep (st : Extract) (choice : Json) : Extract :=
  let delta := choice.field "delta"
  let dcontent := delta.bind (fun d => d.field "content")
  let st1 :=
    if jsTruthy delta && jsTruthy dcontent then streamContentStep st dcontent
    else st
  let msg := choice.field "message"
  let mcontent := msg.bind (fun m => m.field "content")
  if jsTruthy msg && jsTruthy mcontent then streamContentStep st1 mcontent
  else st1

/-- Processing of one line of the stream fallback: only lines whose trim
starts with data: are considered; the first occurrence of the data frame
marker is stripped; a [DONE] sentinel is skipped; a frame that fails to
parse is skipped; otherwise choices[0], when truthy, is processed. -/
def streamLineStep (parse : String → Option Json) (st : Extract) (line : String) : Extract :=
  if jsStartsWith (jsTrim line) "data:" then
    let jsonStr := replaceFirst line "data: "
    if jsTrim jsonStr = "[DONE]" then st
    else
      match parse jsonStr with
      | none => st
      | some data =>
        let choices := data.field "choices"
        let c0 := choices.bind (fun c => c.idx 0)
        if jsTruthy choices && jsTruthy c0 then
          match c0 with
          | some choice => streamChoiceStep st choice
          | none => st
        else st
  else st

/-- The JSON-based extraction phase of generateImage: parse the whole
response as one JSON document and run the standard extraction, or, when
that parse fails, split the response into nonblank lines and fold the
stream-fallback step over them. -/
def resolveExtract (responseText : String) (parse : String → Option Json) : Extract :=
  match parse responseText with
  | some j => extractStandard j
  | none =>
    let lines := (splitNewlines responseText).filter (fun l => jsTrim l ≠ "")
    lines.foldl (streamLineStep parse) { imageBase64 := none, fullContent := "" }

/-- The three locals after the text-scan step. -/
structure Resolved where
  imageUrl : Option String
  imageBase64 : Option String
  fullContent : String

/-- The text-scan fallback shared by generateImage and editImage: when
the guard holds, the URL pattern result is assigned to imageUrl and the
data-URL pattern result, when it matches, overwrites imageBase64. -/
def textScan (e : Extract) : Resolved :=
  let u := findImageUrl e.fullContent
  let b := findDataUrlPayload e.fullContent
  { imageUrl := u
    imageBase64 := match b with | some p => some p | none => e.imageBase64
    fullContent := e.fullContent }

/-- Locals of generateImage after extraction and text scan: imageUrl is
still null after the JSON phase, so the scan runs exactly when
imageBase64 is falsy. -/
def resolveState (responseText : String) (parse : String → Option Json) : Resolved :=
  let e := resolveExtract responseText parse
  let imageUrl0 : Option String := none
  if !strTruthy imageUrl0 && !strTruthy e.imageBase64 then textScan e
  else { imageUrl := imageUrl0, imageBase64 := e.imageBase64, fullContent := e.fullContent }

/-- Locals of editImage after extraction and text scan: editImage has no
stream fallback (its JSON-parse failure only logs) and its scan guard
additionally requires a nonempty fullContent. -/
def resolveStateEdit (responseText : String) (parse : String → Option Json) : Resolved :=
  let e :=
    match parse responseText with
    | some j => extractStandard j
    | none => { imageBase64 := none, fullContent := "" : Extract }
  let imageUrl0 : Option String := none
  if !strTruthy imageUrl0 && !strTruthy e.imageBase64 && e.fullContent ≠ "" then textScan e
  else { imageUrl := imageUrl0, imageBase64 := e.imageBase64, fullContent := e.fullContent }

/-- Where the image bytes come from, decided after all extraction. -/
inductive ImageSource where
  | fromBase64 (payload : String) : ImageSource
  | fromUrl (url : String) : ImageSource

/-- The branch choosing the buffer: a truthy imageBase64 is decoded
directly, otherwise a truthy imageUrl is fetched, otherwise the
no-image error is thrown. -/
def pickImageSource (r : Resolved) : Except String ImageSource :=
  if strTruthy r.imageBase64 then .ok (.fromBase64 (r.imageBase64.getD ""))
  else if strTruthy r.imageUrl then .ok (.fromUrl (r.imageUrl.getD ""))
  else .error "未在响应中找到图像URL或base64数据，可能需要调整提示词"

/-- Materialize the image bytes: a base64 payload is decoded directly, a
URL goes through the image fetch (whose error value is the HTTP status
of the failed download). -/
def resolveBytes (r : Resolved) (fetchImage : String → Except Nat (List Nat)) :
    Except String (List Nat) :=
  match pickImageSource r with
  | .ok (.fromBase64 b) => .ok (base64Decode b)
  | .ok (.fromUrl u) =>
    match fetchImage u with
    | .ok bytes => .ok bytes
    | .error st => .error ("下载图像失败: " ++ toString st)
  | .error msg => .error msg

/-!  Request construction and the two generation entry points. -/

/-- The static configuration fields the modelled functions read. -/
structure Config where
  projectDir : String
  outputDir : String

/-- The optional image_config object: aspect_ratio and image_size. -/
structure ImageConfig where
  image_size : Option String
  aspect_ratio : Option String
deriving DecidableEq

/-- The request body of generateImage: a single user message carrying
the prompt, image and text modalities, no streaming, 4000 max tokens,
and an optional image_config. -/
structure GenRequestBody where
  model : String
  userPrompt : String
  modalities : List String
  max_tokens : Nat
  image_config : Option ImageConfig

/-- The model test guarding image_config attachment: the JS includes
method is a case-sensitive substring test. -/
def wantsImageConfig (model : String) : Bool :=
  jsIncludes model "gemini" || jsIncludes model "nano-banana"

/-- Request construction of generateImage: image_config is attached
exactly when the model name passes wantsImageConfig; a null imageConfig
argument is replaced by the 1K default. -/
def buildGenerateRequestBody (prompt model : String) (imageConfig : Option ImageConfig) :
    GenRequestBody :=
  { model := model
    userPrompt := prompt
    modalities := ["image", "text"]
    max_tokens := 4000
    image_config :=
      if wantsImageConfig model then
        some (imageConfig.getD { image_size := some "1K", aspect_ratio := none })
      else none }

/-- The request body of editImage: a two-part user message with the edit
instruction and the source image wrapped as a jpeg data-URL. -/
structure EditRequestBody where
  model : String
  editText : String
  imageDataUrl : String
  modalities : List String
  max_tokens : Nat
  image_config : Option ImageConfig

/-- Request construction of editImage: the same image_config rule as
buildGenerateRequestBody. -/
def buildEditRequestBody (editPrompt base64Image model : String)
    (imageConfig : Option ImageConfig) : EditRequestBody :=
  { model := model
    editText := editPrompt
    imageDataUrl := "data:image/jpeg;base64," ++ base64Image
    modalities := ["image", "text"]
    max_tokens := 4000
    image_config :=
      if wantsImageConfig model then
        some (imageConfig.getD { image_size := some "1K", aspect_ratio := none })
      else none }

/-- The flat request body of the direct GLM provider. -/
structure GlmRequestBody where
  model : String
  prompt : String
  size : String
  watermark_enabled : Bool

/-- Request construction of generateImageGlm. -/
def buildGlmRequestBody (prompt size : String) : GlmRequestBody :=
  { model := "glm-image", prompt := prompt, size := size, watermark_enabled := false }

/-- The result record returned across the per-job boundary. Fields the
JS object omits are none; success results of the conversational path
carry message and filePath, failures carry error, and only the GLM path
ever sets model. -/
structure GenResult where
  success : Bool
  message : Option String
  filePath : Option String
  error : Option String
  prompt : Option String
  model : Option String
deriving DecidableEq

/-- The oracle for one conversational round trip: the POST outcome, the
raw response text, the JSON parser of the runtime, the image download
oracle (error value: HTTP status) and the wall-clock ISO timestamp used
for generated file names. -/
structure GenEnv where
  ok : Bool
  status : Nat
  errorText : String
  responseText : String
  parse : String → Option Json
  fetchImage : String → Except Nat (List Nat)
  timestamp : String

/-- ISO timestamp sanitization: colons and dots become dashes. -/
def sanitizeTimestamp (t : String) : String :=
  String.mk (t.data.map (fun c => if c = ':' || c = '.' then '-' else c))

/-- A character kept verbatim by the safe-prompt filter: ASCII letters
and digits and the CJK range 4e00-9fa5. -/
def isSafePromptChar (c : Char) : Bool :=
  c.isAlpha || c.isDigit || (0x4e00 ≤ c.toNat && c.toNat ≤ 0x9fa5)

/-- The file-name fragment derived from the prompt: the first thirty
characters with every unsafe character replaced by an underscore. -/
def safePromptStr (p : String) : String :=
  String.mk ((p.data.take 30).map (fun c => if isSafePromptChar c then c else '_'))

/-- The directory a default path lands in: projectDir when truthy, else
outputDir. -/
def targetDirOf (cfg : Config) : String :=
  if cfg.projectDir ≠ "" then cfg.projectDir else cfg.outputDir

/-- The default save path of generateImage; the extension is jpg exactly
when a base64 image was found and the raw response mentions image/jpeg. -/
def mkGeneratedPath (cfg : Config) (timestamp prompt : String) (jpeg : Bool) : String :=
  targetDirOf cfg ++ "/generated_" ++ safePromptStr prompt ++ "_"
    ++ sanitizeTimestamp timestamp ++ "." ++ (if jpeg then "jpg" else "png")

/-- A failing conversational result: error and prompt only. -/
def genFailure (msg prompt : String) : GenResult :=
  { success := false, message := none, filePath := none,
    error := some msg, prompt := some prompt, model := none }

/-- A successful conversational result: message, filePath and prompt,
and no model field. -/
def genSuccess (path prompt : String) : GenResult :=
  { success := true, message := some ("图像生成成功并保存到: " ++ path),
    filePath := some path, error := none,
    prompt := some prompt, model := none }

/-- generateImage, with its network effects supplied by the environment.
The second component counts the HTTP round trips the call performed: the
chat POST is one, a URL download is a second. -/
def generateImage (prompt : String) (saveToFilePath : Option String) (model : String)
    (imageConfig : Option ImageConfig) (cfg : Config) (env : GenEnv) : GenResult × Nat :=
  let _body := buildGenerateRequestBody prompt model imageConfig
  if !env.ok then
    (genFailure ("API 请求失败: " ++ toString env.status ++ " - " ++ env.errorText) prompt, 1)
  else
    let r := resolveState env.responseText env.parse
    match pickImageSource r with
    | .error msg => (genFailure msg prompt, 1)
    | .ok (.fromBase64 _) =>
      let path := saveToFilePath.getD
        (mkGeneratedPath cfg env.timestamp prompt (jsIncludes env.responseText "image/jpeg"))
      (genSuccess path prompt, 1)
    | .ok (.fromUrl u) =>
      match env.fetchImage u with
      | .error st => (genFailure ("下载图像失败: " ++ toString st) prompt, 2)
      | .ok _ => (genSuccess (saveToFilePath.getD
          (mkGeneratedPath cfg env.timestamp prompt false)) prompt, 2)

/-- The oracle for one GLM round trip: the POST outcome, the parsed
JSON body or the parse error the json method threw, the download oracle
and the timestamp. -/
structure GlmEnv where
  ok : Bool
  status : Nat
  errorText : String
  json : Except String Json
  fetchImage : String → Except Nat (List Nat)
  timestamp : String

/-- A failing GLM result: error, prompt and the glm-image model tag. -/
def glmFailure (msg prompt : String) : GenResult :=
  { success := false, message := none, filePath := none,
    error := some msg, prompt := some prompt, model := some "glm-image" }

/-- The data[0].url field of a GLM response document. -/
def glmUrlField (data : Json) : Option Json :=
  ((data.field "data").bind (fun d => d.idx 0)).bind (fun e => e.field "url")

/-- The acceptance test of the GLM response shape:
data && data[0] && data[0].url, all truthy. -/
def glmHasUrl (data : Json) : Bool :=
  jsTruthy (data.field "data")
    && jsTruthy ((data.field "data").bind (fun d => d.idx 0))
    && jsTruthy (glmUrlField data)

/-- generateImageGlm: only the data[0].url response shape is accepted;
every thrown error is converted at the function boundary into a failing
result tagged glm-image. -/
def generateImageGlm (prompt : String) (saveToFilePath : Option String) (size : String)
    (cfg : Config) (env : GlmEnv) : GenResult × Nat :=
  let _body := buildGlmRequestBody prompt size
  if !env.ok then
    (glmFailure ("智谱 API 请求失败: " ++ toString env.status ++ " - " ++ env.errorText) prompt, 1)
  else
    match env.json with
    | .error msg => (glmFailure msg prompt, 1)
    | .ok data =>
      if !glmHasUrl data then
        (glmFailure "智谱 API 返回格式异常，未找到图像 URL" prompt, 1)
      else
        let imageUrl := (Json.asStr (glmUrlField data)).getD ""
        match env.fetchImage imageUrl with
        | .error st => (glmFailure ("下载图像失败: " ++ toString st) prompt, 2)
        | .ok _ =>
          let path := saveToFilePath.getD (targetDirOf cfg ++ "/glm_" ++ safePromptStr prompt
            ++ "_" ++ sanitizeTimestamp env.timestamp ++ ".png")
          ({ success := true, message := some ("图像生成成功并保存到: " ++ path),
             filePath := some path, error := none, prompt := some prompt,
             model := some "glm-image" }, 2)

/-!  Batch execution. The JS drains a shared queue with
min(concurrency, queue.length) async workers; one worker-loop iteration
pops exactly one job and appends exactly one result, so the model
sequentializes the workers: when at least one worker exists the queue is
drained front to back, and with zero workers nothing runs at all. -/

/-- One element of the batch request list; either field may be absent. -/
structure Job where
  prompt : Option String
  saveToFilePath : Option String
deriving DecidableEq

/-- The body of one worker-loop iteration of generateImageBatch: a job
with a falsy prompt is recorded as an immediate failing result with zero
network round trips; otherwise generateImage runs (generateImage catches
internally, so the worker-level catch never fires). -/
def runBatchJobGen (model : String) (imageConfig : Option ImageConfig) (cfg : Config)
    (envOf : Job → GenEnv) (job : Job) : GenResult × Nat :=
  if !strTruthy job.prompt then
    ({ success := false, message := none, filePath := none, error := some "缺少 prompt",
       prompt := job.prompt, model := none }, 0)
  else
    generateImage (job.prompt.getD "") job.saveToFilePath model imageConfig cfg (envOf job)

/-- The body of one worker-loop iteration of generateImageGlmBatch; the
missing-prompt record of the GLM batch also carries no model field. -/
def runBatchJobGlm (size : String) (cfg : Config) (envOf : Job → GlmEnv) (job : Job) :
    GenResult × Nat :=
  if !strTruthy job.prompt then
    ({ success := false, message := none, filePath := none, error := some "缺少 prompt",
       prompt := job.prompt, model := none }, 0)
  else
    generateImageGlm (job.prompt.getD "") job.saveToFilePath size cfg (envOf job)

/-- Sequentialized queue drain: pop the head, append its result, repeat
until the queue is empty. -/
def drainQueue (runJob : Job → GenResult × Nat) : List Job → List GenResult → List GenResult
  | [], results => results
  | j :: rest, results => drainQueue runJob rest (results ++ [(runJob j).1])

/-- generateImageBatch: an empty request list throws synchronously; the
queue is a copy of the argument list; min(concurrency, queue.length)
workers drain it, so zero workers return an empty result list. -/
def generateImageBatch (batchRequests : List Job) (concurrency : Nat) (model : String)
    (imageConfig : Option ImageConfig) (cfg : Config) (envOf : Job → GenEnv) :
    Except String (List GenResult) :=
  if batchRequests.isEmpty then
    .error "缺少批量请求列表，需提供 [\x7b prompt, saveToFilePath? \x7d, ...]"
  else
    let queue := batchRequests
    let workerCount := Nat.min concurrency queue.length
    if workerCount = 0 then .ok []
    else .ok (drainQueue (runBatchJobGen model imageConfig cfg envOf) queue [])

/-- generateImageGlmBatch: structurally identical to generateImageBatch
with the GLM per-job body. -/
def generateImageGlmBatch (batchRequests : List Job) (concurrency : Nat) (size : String)
    (cfg : Config) (envOf : Job → GlmEnv) : Except String (List GenResult) :=
  if batchRequests.isEmpty then
    .error "缺少批量请求列表，需提供 [\x7b prompt, saveToFilePath? \x7d, ...]"
  else
    let queue := batchRequests
    let workerCount := Nat.min concurrency queue.length
    if workerCount = 0 then .ok []
    else .ok (drainQueue (runBatchJobGlm size cfg envOf) queue [])

/-!  Mutable-state view of the executor, for the frame property: the
caller-supplied array and the private queue are distinct locations; the
worker loop shifts only the queue. -/

/-- The mutable locations of one batch invocation: the argument array,
the queue created by slice, and the results array. -/
structure ExecState where
  batchRequests : List Job
  queue : List Job
  results : List GenResult

/-- State right after queue and results initialization: slice copies the
argument array into the queue. -/
def execInit (jobs : List Job) : ExecState :=
  { batchRequests := jobs, queue := jobs, results := [] }

/-- One worker-loop iteration on the shared state: shift the queue and
push the result of the popped job; a no-op on an empty queue. -/
def execStep (runJob : Job → GenResult × Nat) (s : ExecState) : ExecState :=
  match s.queue with
  | [] => s
  | j :: rest => { batchRequests := s.batchRequests, queue := rest,
                   results := s.results ++ [(runJob j).1] }

/-- Repeated worker-loop iterations. -/
def execRun (runJob : Job → GenResult × Nat) : Nat → ExecState → ExecState
  | 0, s => s
  | n + 1, s => execRun runJob n (execStep runJob s)

/-!  Derived notions and concrete documents and environments used to
state and instantiate the claims. -/

/-- The payload one message.images entry contributes when its shape and
data-URL pass all the guards of imageEntryStep, none otherwise. -/
def entryPayload (img : Json) : Option String :=
  let urlField := (img.field "image_url").bind (fun u => u.field "url")
  if jsStrEq (img.field "type") "image_url" && jsTruthy (img.field "image_url")
      && jsTruthy urlField then
    match Json.asStr urlField with
    | some dataUrl => dataUrlAnchoredPayload dataUrl
    | none => none
  else none

/-- A message.images entry of the OpenRouter shape carrying the given
image_url.url value. -/
def mkEntry (u : String) : Json :=
  Json.obj [("type", Json.str "image_url"), ("image_url", Json.obj [("url", Json.str u)])]

/-- A standard response document whose message carries the given image
entry list and no content. -/
def mkImagesJson (imgs : List Json) : Json :=
  Json.obj [("choices", Json.arr [Json.obj [("message",
    Json.obj [("images", Json.arr imgs)])]])]

/-- A standard response document whose message content is the given
plain string. -/
def mkContentJson (s : String) : Json :=
  Json.obj [("choices", Json.arr [Json.obj [("message",
    Json.obj [("content", Json.str s)])]])]

/-- One event-stream frame whose choices[0].delta.content carries a
single inline image part with the given base64 data. -/
def streamDeltaFrame (b : String) : Json :=
  let part := Json.obj [("type", Json.str "image"),
    ("inline_data", Json.obj [("data", Json.str b), ("mime_type", Json.str "image/png")])]
  let delta := Json.obj [("content", Json.arr [part])]
  Json.obj [("choices", Json.arr [Json.obj [("delta", delta)]])]

/-- A sample static configuration. -/
def cfg0 : Config := { projectDir := "/proj", outputDir := "/out" }

/-- A conversational round trip that failed at the HTTP layer. -/
def envFail : GenEnv :=
  { ok := false, status := 500, errorText := "boom", responseText := "",
    parse := fun _ => none, fetchImage := fun _ => .error 404,
    timestamp := "2026-01-01T00:00:00.000Z" }

/-- A refusal sentence with no URL and no data-URL in it. -/
def refusalText : String := "I cannot create that image."

/-- A successful round trip whose body parses to a message whose content
is only the refusal sentence: no strategy can turn it into an image. -/
def envRefusal : GenEnv :=
  { ok := true, status := 200, errorText := "",
    responseText := "REFUSAL",
    parse := fun s => if s = "REFUSAL" then some (mkContentJson refusalText) else none,
    fetchImage := fun _ => .error 404,
    timestamp := "2026-01-01T00:00:00.000Z" }

/-- Seven batch jobs of which the fourth lacks its prompt. -/
def sevenJobs : List Job :=
  [{ prompt := some "p1", saveToFilePath := none },
   { prompt := some "p2", saveToFilePath := none },
   { prompt := some "p3", saveToFilePath := none },
   { prompt := none, saveToFilePath := none },
   { prompt := some "p5", saveToFilePath := none },
   { prompt := some "p6", saveToFilePath := none },
   { prompt := some "p7", saveToFilePath := none }]

/-- The serialized shape of a conversational (nano or seedream) result:
no model field; message and filePath exactly on success, error exactly
on failure. -/
def conversationalShape (r : GenResult) : Prop :=
  r.model = none
  ∧ ((r.success = true ∧ r.error = none ∧ r.filePath ≠ none ∧ r.message ≠ none)
    ∨ (r.success = false ∧ r.error ≠ none ∧ r.filePath = none ∧ r.message = none))

/-- The serialized shape of a GLM result: model always glm-image;
filePath exactly on success, error exactly on failure. -/
def glmShape (r : GenResult) : Prop :=
  r.model = some "glm-image"
  ∧ ((r.success = true ∧ r.error = none ∧ r.filePath ≠ none)
    ∨ (r.success = false ∧ r.error ≠ none ∧ r.filePath = none))

/-- A content string carrying both a bare image URL and a data-URL. -/
def bothText : String := "see https://x.com/a.png and data:image/png;base64,QUJD ok"

/-- A parser mapping the fixed response RESP to a document whose message
content is bothText. -/
def parseBoth : String → Option Json :=
  fun s => if s = "RESP" then some (mkContentJson bothText) else none

/-- The raw body of a sample event stream: a noise line, one data frame,
one termination sentinel. -/
def streamText : String := "noise line" ++ "\n" ++ "data: FRAME" ++ "\n" ++ "data: [DONE]"

/-- A parser that accepts only the frame payload of streamText (the
whole body fails to parse, as in a streaming transcript). -/
def parseFrame : String → Option Json :=
  fun s => if s = "FRAME" then some (streamDeltaFrame "QUJD") else none

/-- A GLM response document with no data[0].url field that the
conversational multi-strategy chain would nevertheless resolve: its
message.images entry carries a valid data-URL. -/
def glmChainDoc : Json := mkImagesJson [mkEntry "data:image/png;base64,QUJD"]

/-- A 2xx GLM round trip whose parsed body is glmChainDoc. -/
def envGlmChain : GlmEnv :=
  { ok := true, status := 200, errorText := "", json := .ok glmChainDoc,
    fetchImage := fun _ => .error 404, timestamp := "2026-01-01T00:00:00.000Z" }

/-!  Helper lemmas. -/

theorem drainQueue_eq_map (runJob : Job → GenResult × Nat) (q : List Job) :
    ∀ acc : List GenResult,
      drainQueue runJob q acc = acc ++ q.map (fun j => (runJob j).1) := by
  induction q with
  | nil => intro acc; simp [drainQueue]
  | cons j rest ih => intro acc; simp [drainQueue, ih]

theorem generateImageBatch_ok (model : String) (imageConfig : Option ImageConfig)
    (cfg : Config) (envOf : Job → GenEnv) (jobs : List Job) (conc : Nat)
    (hne : jobs ≠ []) (hc : 1 ≤ conc) :
    generateImageBatch jobs conc model imageConfig cfg envOf
      = .ok (jobs.map (fun j => (runBatchJobGen model imageConfig cfg envOf j).1)) := by
  cases jobs with
  | nil => exact absurd rfl hne
  | cons j rest =>
    have hmin : ¬ Nat.min conc (j :: rest).length = 0 := by
      rw [Nat.min_eq_zero_iff]
      simp only [List.length_cons]
      omega
    simp [generateImageBatch, hmin, drainQueue_eq_map]
    omega

theorem generateImageGlmBatch_ok (size : String) (cfg : Config) (envOf : Job → GlmEnv)
    (jobs : List Job) (conc : Nat) (hne : jobs ≠ []) (hc : 1 ≤ conc) :
    generateImageGlmBatch jobs conc size cfg envOf
      = .ok (jobs.map (fun j => (runBatchJobGlm size cfg envOf j).1)) := by
  cases jobs with
  | nil => exact absurd rfl hne
  | cons j rest =>
    have hmin : ¬ Nat.min conc (j :: rest).length = 0 := by
      rw [Nat.min_eq_zero_iff]
      simp only [List.length_cons]
      omega
    simp [generateImageGlmBatch, hmin, drainQueue_eq_map]
    omega

theorem execStep_batchRequests (runJob : Job → GenResult × Nat) (s : ExecState) :
    (execStep runJob s).batchRequests = s.batchRequests := by
  rcases s with ⟨b, q, r⟩
  cases q <;> rfl

theorem execRun_batchRequests (runJob : Job → GenResult × Nat) :
    ∀ (n : Nat) (s : ExecState), (execRun runJob n s).batchRequests = s.batchRequests := by
  intro n
  induction n with
  | zero => intro s; rfl
  | succ n ih => intro s; rw [execRun, ih, execStep_batchRequests]

theorem execRun_drain (runJob : Job → GenResult × Nat) (q : List Job) :
    ∀ (b : List Job) (res : List GenResult),
      execRun runJob q.length { batchRequests := b, queue := q, results := res }
        = { batchRequests := b, queue := [],
            results := res ++ q.map (fun j => (runJob j).1) } := by
  induction q with
  | nil => intro b res; simp [execRun]
  | cons j rest ih =>
    intro b res
    simp only [List.length_cons, execRun, execStep]
    rw [ih]
    simp

theorem isPrefixOf_iff_exists (p : List Char) :
    ∀ s : List Char, List.isPrefixOf p s = true ↔ ∃ t, s = p ++ t := by
  induction p with
  | nil =>
    intro s
    simp [List.isPrefixOf]
  | cons c cs ih =>
    intro s
    cases s with
    | nil => simp [List.isPrefixOf]
    | cons d ds =>
      simp only [List.isPrefixOf, Bool.and_eq_true, beq_iff_eq, ih, List.cons_append]
      constructor
      · rintro ⟨hcd, t, ht⟩
        exact ⟨t, by rw [hcd, ht]⟩
      · rintro ⟨t, ht⟩
        injection ht with h1 h2
        exact ⟨h1.symm, t, h2⟩

theorem containsSub_iff (pat : List Char) :
    ∀ s : List Char, containsSub s pat = true ↔ ∃ pre post, s = pre ++ pat ++ post := by
  intro s
  induction s with
  | nil =>
    cases pat with
    | nil => simp [containsSub]
    | cons p ps => simp [containsSub]
  | cons c rest ih =>
    cases pat with
    | nil => simpa [containsSub] using ⟨[], c :: rest, rfl⟩
    | cons p ps =>
      rw [containsSub]
      simp only [Bool.or_eq_true, isPrefixOf_iff_exists, ih]
      constructor
      · rintro (⟨t, ht⟩ | ⟨pre, post, h⟩)
        · exact ⟨[], t, by simp [ht]⟩
        · exact ⟨c :: pre, post, by simp [h]⟩
      · rintro ⟨pre, post, h⟩
        cases pre with
        | nil =>
          left
          exact ⟨post, by simpa using h⟩
        | cons a as =>
          right
          rw [List.cons_append, List.cons_append] at h
          injection h with h1 h2
          exact ⟨as, post, h2⟩

theorem string_mk_ne_empty {l : List Char} (h : l ≠ []) : String.mk l ≠ "" := by
  intro he
  exact h (congrArg String.data he)

theorem dataUrlAnchoredPayload_ne_empty {s : String} {p : String}
    (h : dataUrlAnchoredPayload s = some p) : p ≠ "" := by
  dsimp only [dataUrlAnchoredPayload] at h
  split at h
  · split at h
    · exact absurd h (by simp)
    · split at h
      · split at h
        · rename_i hlen
          injection h with h
          subst h
          apply string_mk_ne_empty
          intro hnil
          rw [hnil] at hlen
          simp at hlen
        · exact absurd h (by simp)
      · exact absurd h (by simp)
  · exact absurd h (by simp)

theorem tryDataUrlAt_ne_empty {cs : List Char} {p : String}
    (h : tryDataUrlAt cs = some p) : p ≠ "" := by
  dsimp only [tryDataUrlAt] at h
  split at h
  · split at h
    · exact absurd h (by simp)
    · split at h
      · split at h
        · rename_i hlen
          injection h with h
          subst h
          apply string_mk_ne_empty
          intro hnil
          rw [hnil] at hlen
          simp at hlen
        · exact absurd h (by simp)
      · exact absurd h (by simp)
  · exact absurd h (by simp)

theorem findDataUrlPayloadL_ne_empty :
    ∀ {cs : List Char} {p : String}, findDataUrlPayloadL cs = some p → p ≠ "" := by
  intro cs
  induction cs with
  | nil => intro p h; exact absurd h (by simp [findDataUrlPayloadL])
  | cons c rest ih =>
    intro p h
    rw [findDataUrlPayloadL] at h
    split at h
    · rename_i htry
      injection h with h
      subst h
      exact tryDataUrlAt_ne_empty htry
    · exact ih h

theorem findDataUrlPayload_ne_empty {s p : String}
    (h : findDataUrlPayload s = some p) : p ≠ "" :=
  findDataUrlPayloadL_ne_empty h

theorem lcIsPrefix_ne_nil {p : List Char} {cs : List Char}
    (hp : p ≠ []) (h : lcIsPrefix p cs = true) : cs ≠ [] := by
  cases p with
  | nil => exact absurd rfl hp
  | cons a as =>
    cases cs with
    | nil => simp [lcIsPrefix] at h
    | cons c cs => simp

theorem tryUrlAt_ne_empty {cs : List Char} {u : String}
    (h : tryUrlAt cs = some u) : u ≠ "" := by
  dsimp only [tryUrlAt] at h
  split at h
  · exact absurd h (by simp)
  · rename_i n heq
    have hcs : cs ≠ [] := by
      by_cases h8 : lcIsPrefix "https://".data cs = true
      · exact lcIsPrefix_ne_nil (by simp) h8
      · by_cases h7 : lcIsPrefix "http://".data cs = true
        · exact lcIsPrefix_ne_nil (by simp) h7
        · rw [if_neg h8, if_neg h7] at heq
          exact absurd heq (by simp)
    have hn : 1 ≤ n := by
      by_cases h8 : lcIsPrefix "https://".data cs = true
      · rw [if_pos h8] at heq
        injection heq with heq
        omega
      · by_cases h7 : lcIsPrefix "http://".data cs = true
        · rw [if_neg h8, if_pos h7] at heq
          injection heq with heq
          omega
        · rw [if_neg h8, if_neg h7] at heq
          exact absurd heq (by simp)
    split at h
    · rename_i m hbest
      injection h with h
      subst h
      apply string_mk_ne_empty
      cases cs with
      | nil => exact absurd rfl hcs
      | cons c rest =>
        cases hnm : n + m with
        | zero => omega
        | succ k => simp [List.take_succ_cons]
    · exact absurd h (by simp)

theorem findImageUrlL_ne_empty :
    ∀ {cs : List Char} {u : String}, findImageUrlL cs = some u → u ≠ "" := by
  intro cs
  induction cs with
  | nil => intro u h; exact absurd h (by simp [findImageUrlL])
  | cons c rest ih =>
    intro u h
    rw [findImageUrlL] at h
    split at h
    · rename_i htry
      injection h with h
      subst h
      exact tryUrlAt_ne_empty htry
    · exact ih h

theorem findImageUrl_ne_empty {s u : String}
    (h : findImageUrl s = some u) : u ≠ "" :=
  findImageUrlL_ne_empty h

theorem imageEntryStep_eq (acc : Option String) (img : Json) :
    imageEntryStep acc img
      = match entryPayload img with | some p => some p | none => acc := by
  dsimp only [imageEntryStep, entryPayload]
  split
  · split
    · rename_i d heq
      cases dataUrlAnchoredPayload d <;> rfl
    · rfl
  · rfl

theorem foldl_imageEntryStep_none (l : List Json) :
    ∀ acc, (∀ i ∈ l, entryPayload i = none) → l.foldl imageEntryStep acc = acc := by
  induction l with
  | nil => intro acc _; rfl
  | cons x xs ih =>
    intro acc h
    rw [List.foldl_cons, imageEntryStep_eq, h x (by simp)]
    exact ih acc (fun i hi => h i (by simp [hi]))

theorem foldl_imageEntryStep_last (pre post : List Json) (img : Json) (p : String)
    (hp : entryPayload img = some p) (hpost : ∀ i ∈ post, entryPayload i = none) :
    (pre ++ img :: post).foldl imageEntryStep none = some p := by
  rw [List.foldl_append, List.foldl_cons, imageEntryStep_eq, hp]
  exact foldl_imageEntryStep_none post (some p) hpost

theorem entryPayload_ne_empty {img : Json} {p : String}
    (h : entryPayload img = some p) : p ≠ "" := by
  dsimp only [entryPayload] at h
  split at h
  · split at h
    · exact dataUrlAnchoredPayload_ne_empty h
    · exact absurd h (by simp)
  · exact absurd h (by simp)

theorem extractStandard_mkImagesJson (imgs : List Json) :
    extractStandard (mkImagesJson imgs)
      = { imageBase64 := imgs.foldl imageEntryStep none, fullContent := "" } := by
  cases h : strTruthy (imgs.foldl imageEntryStep none) <;>
    simp [extractStandard, mkImagesJson, Json.field, Json.idx, jsTruthy, List.find?, h]

theorem extractStandard_mkContentJson (s : String) :
    extractStandard (mkContentJson s)
      = { imageBase64 := none, fullContent := s } := rfl

theorem streamLineStep_skip (parse : String → Option Json) (st : Extract) (l : String)
    (h : jsStartsWith (jsTrim l) "data:" = false
      ∨ jsTrim (replaceFirst l "data: ") = "[DONE]"
      ∨ parse (replaceFirst l "data: ") = none) :
    streamLineStep parse st l = st := by
  rcases h with h | h | h
  · simp [streamLineStep, h]
  · simp [streamLineStep, h]
  · simp [streamLineStep, h]

theorem foldl_streamLineStep_skip (parse : String → Option Json) (lines : List String)
    (h : ∀ x ∈ lines, jsStartsWith (jsTrim x) "data:" = false
      ∨ jsTrim (replaceFirst x "data: ") = "[DONE]"
      ∨ parse (replaceFirst x "data: ") = none) :
    ∀ st, lines.foldl (streamLineStep parse) st = st := by
  induction lines with
  | nil => intro st; rfl
  | cons x xs ih =>
    intro st
    rw [List.foldl_cons, streamLineStep_skip parse st x (h x (by simp))]
    exact ih (fun i hi => h i (by simp [hi])) st

theorem streamLineStep_frame (parse : String → Option Json) (st : Extract)
    (l fjson b : String)
    (hl : jsStartsWith (jsTrim l) "data:" = true)
    (hstrip : replaceFirst l "data: " = fjson)
    (hnd : jsTrim fjson ≠ "[DONE]")
    (hparse : parse fjson = some (streamDeltaFrame b)) :
    streamLineStep parse st l = { imageBase64 := some b, fullContent := st.fullContent } := by
  simp [streamLineStep, hl, hstrip, hnd, hparse, streamDeltaFrame, streamChoiceStep,
    streamContentStep, partStep, Json.field, Json.idx, jsTruthy, jsStrEq, Json.asStr,
    List.find?]

theorem generateImage_cases (prompt : String) (save : Option String) (model : String)
    (ic : Option ImageConfig) (cfg : Config) (env : GenEnv) :
    (∃ msg, (generateImage prompt save model ic cfg env).1 = genFailure msg prompt)
    ∨ (∃ path, (generateImage prompt save model ic cfg env).1 = genSuccess path prompt) := by
  dsimp only [generateImage]
  split
  · exact Or.inl ⟨_, rfl⟩
  · split
    · exact Or.inl ⟨_, rfl⟩
    · exact Or.inr ⟨_, rfl⟩
    · split
      · exact Or.inl ⟨_, rfl⟩
      · exact Or.inr ⟨_, rfl⟩

theorem genFailure_shape (msg prompt : String) :
    conversationalShape (genFailure msg prompt) := by
  simp [conversationalShape, genFailure]

theorem genSuccess_shape (path prompt : String) :
    conversationalShape (genSuccess path prompt) := by
  simp [conversationalShape, genSuccess]

theorem generateImageGlm_cases (prompt : String) (save : Option String) (size : String)
    (cfg : Config) (env : GlmEnv) :
    (∃ msg, (generateImageGlm prompt save size cfg env).1 = glmFailure msg prompt)
    ∨ (∃ path, (generateImageGlm prompt save size cfg env).1
        = { success := true, message := some ("图像生成成功并保存到: " ++ path),
            filePath := some path, error := none, prompt := some prompt,
            model := some "glm-image" }) := by
  dsimp only [generateImageGlm]
  split
  · exact Or.inl ⟨_, rfl⟩
  · split
    · exact Or.inl ⟨_, rfl⟩
    · split
      · exact Or.inl ⟨_, rfl⟩
      · split
        · exact Or.inl ⟨_, rfl⟩
        · exact Or.inr ⟨_, rfl⟩

theorem glmFailure_shape (msg prompt : String) : glmShape (glmFailure msg prompt) := by
  simp [glmShape, glmFailure]

/-!  Claim theorems. -/

/-- C1, counterexample: with concurrency 0 the worker pool
min(concurrency, queue.length) is empty, so generateImageBatch returns
an empty result list for a one-job batch — the claim fails for that
concurrency value. -/
theorem c1_counterexample :
    generateImageBatch [{ prompt := some "p", saveToFilePath := none }] 0 "m" none cfg0
        (fun _ => envFail) = .ok []
    ∧ ([] : List GenResult).length
        ≠ ([{ prompt := some "p", saveToFilePath := none }] : List Job).length :=
  ⟨rfl, by decide⟩

/-- C1, amended: for every non-empty job list and every concurrency of
at least one, both batch executors return exactly one result per
submitted job — the result list is the job list mapped through the
per-job runner, so no job is dropped and none duplicated, and its length
equals the number of jobs however many jobs fail. -/
theorem c1_batch_length (jobs : List Job) (concurrency : Nat) (model size : String)
    (imageConfig : Option ImageConfig) (cfg : Config)
    (envOf : Job → GenEnv) (genvOf : Job → GlmEnv)
    (hne : jobs ≠ []) (hc : 1 ≤ concurrency) :
    generateImageBatch jobs concurrency model imageConfig cfg envOf
        = .ok (jobs.map (fun j => (runBatchJobGen model imageConfig cfg envOf j).1))
    ∧ generateImageGlmBatch jobs concurrency size cfg genvOf
        = .ok (jobs.map (fun j => (runBatchJobGlm size cfg genvOf j).1))
    ∧ (jobs.map (fun j => (runBatchJobGen model imageConfig cfg envOf j).1)).length
        = jobs.length
    ∧ (jobs.map (fun j => (runBatchJobGlm size cfg genvOf j).1)).length = jobs.length :=
  ⟨generateImageBatch_ok model imageConfig cfg envOf jobs concurrency hne hc,
   generateImageGlmBatch_ok size cfg genvOf jobs concurrency hne hc,
   List.length_map _ _, List.length_map _ _⟩

/-- C1 witness: a concrete two-job batch at concurrency 3. -/
theorem c1_batch_length_witness :
    ([{ prompt := some "p", saveToFilePath := none },
      { prompt := none, saveToFilePath := none }] : List Job) ≠ []
    ∧ (1 : Nat) ≤ 3
    ∧ generateImageBatch
        [{ prompt := some "p", saveToFilePath := none },
         { prompt := none, saveToFilePath := none }] 3 "m" none cfg0 (fun _ => envFail)
        = .ok ([{ prompt := some "p", saveToFilePath := none },
         { prompt := none, saveToFilePath := none }].map
          (fun j => (runBatchJobGen "m" none cfg0 (fun _ => envFail) j).1)) :=
  ⟨by decide, by decide,
   (c1_batch_length
     [{ prompt := some "p", saveToFilePath := none },
      { prompt := none, saveToFilePath := none }] 3 "m" "1280x1280" none cfg0
     (fun _ => envFail) (fun _ => envGlmChain) (by decide) (by decide)).1⟩

/-- C2, counterexample: a result produced by generateImage (the
nano/seedream path) carries no model field at all, so not every JobResult
has the {success, filePath|error, prompt, model} shape with model. -/
theorem c2_counterexample :
    (generateImage "p" none "m" none cfg0 envFail).1.success = false
    ∧ (generateImage "p" none "m" none cfg0 envFail).1.model = none :=
  ⟨rfl, rfl⟩

/-- C2, amended: every GLM result carries model glm-image with filePath
exactly on success and error exactly on failure; every conversational
generateImage result carries success, prompt, message and filePath on
success or error on failure, and never a model field. -/
theorem c2_result_shape (prompt : String) (save : Option String) (model size : String)
    (ic : Option ImageConfig) (cfg : Config) (env : GenEnv) (genv : GlmEnv) :
    conversationalShape (generateImage prompt save model ic cfg env).1
    ∧ (generateImage prompt save model ic cfg env).1.prompt = some prompt
    ∧ glmShape (generateImageGlm prompt save size cfg genv).1
    ∧ (generateImageGlm prompt save size cfg genv).1.prompt = some prompt := by
  refine ⟨?_, ?_, ?_, ?_⟩
  · rcases generateImage_cases prompt save model ic cfg env with ⟨msg, h⟩ | ⟨path, h⟩
    · rw [h]; exact genFailure_shape msg prompt
    · rw [h]; exact genSuccess_shape path prompt
  · rcases generateImage_cases prompt save model ic cfg env with ⟨msg, h⟩ | ⟨path, h⟩
    · rw [h]; rfl
    · rw [h]; rfl
  · rcases generateImageGlm_cases prompt save size cfg genv with ⟨msg, h⟩ | ⟨path, h⟩
    · rw [h]; exact glmFailure_shape msg prompt
    · rw [h]; simp [glmShape]
  · rcases generateImageGlm_cases prompt save size cfg genv with ⟨msg, h⟩ | ⟨path, h⟩
    · rw [h]; rfl
    · rw [h]

/-- C3: whenever the HTTP call succeeded but neither the JSON strategies
nor the text scan produced a truthy image payload or URL, generateImage
returns the no-image failing result whose message asks for a prompt
adjustment — it does not throw past the job boundary. -/
theorem c3_no_image_failure (prompt : String) (save : Option String) (model : String)
    (ic : Option ImageConfig) (cfg : Config) (env : GenEnv)
    (hok : env.ok = true)
    (hb : strTruthy (resolveState env.responseText env.parse).imageBase64 = false)
    (hu : strTruthy (resolveState env.responseText env.parse).imageUrl = false) :
    generateImage prompt save model ic cfg env
      = (genFailure "未在响应中找到图像URL或base64数据，可能需要调整提示词" prompt, 1) := by
  have hpick : pickImageSource (resolveState env.responseText env.parse)
      = .error "未在响应中找到图像URL或base64数据，可能需要调整提示词" := by
    simp [pickImageSource, hb, hu]
  simp [generateImage, hok, hpick]

/-- C3 witness: a 2xx response whose message content is only a refusal
sentence. -/
theorem c3_no_image_failure_witness :
    envRefusal.ok = true
    ∧ strTruthy (resolveState envRefusal.responseText envRefusal.parse).imageBase64 = false
    ∧ strTruthy (resolveState envRefusal.responseText envRefusal.parse).imageUrl = false
    ∧ generateImage "a cat" none "m" none cfg0 envRefusal
        = (genFailure "未在响应中找到图像URL或base64数据，可能需要调整提示词" "a cat", 1) :=
  ⟨rfl, rfl, rfl, c3_no_image_failure "a cat" none "m" none cfg0 envRefusal rfl rfl rfl⟩

/-- C4, counterexample: the loop over message.images never exits early;
with two entries both carrying valid base64 data-URLs the payload of the
second (last) entry is kept, not the first as claimed. -/
theorem c4_counterexample :
    entryPayload (mkEntry "data:image/png;base64,AAAA") = some "AAAA"
    ∧ entryPayload (mkEntry "data:image/png;base64,BBBB") = some "BBBB"
    ∧ (extractStandard (mkImagesJson
        [mkEntry "data:image/png;base64,AAAA",
         mkEntry "data:image/png;base64,BBBB"])).imageBase64 = some "BBBB"
    ∧ (some "BBBB" : Option String) ≠ some "AAAA" :=
  ⟨rfl, rfl, rfl, by decide⟩

/-- C4, amended: among the image entries of a structured response, the
last entry carrying a valid base64 data-URL is the one used (no
merging), and the resolved bytes are the base64 decoding of that last
entry payload. -/
theorem c4_last_entry_wins (pre post : List Json) (img : Json) (p : String)
    (parse : String → Option Json) (responseText : String)
    (hresp : parse responseText = some (mkImagesJson (pre ++ img :: post)))
    (hp : entryPayload img = some p)
    (hpost : ∀ i ∈ post, entryPayload i = none) :
    (resolveState responseText parse).imageBase64 = some p
    ∧ ∀ fetch, resolveBytes (resolveState responseText parse) fetch
        = .ok (base64Decode p) := by
  have hfold : (pre ++ img :: post).foldl imageEntryStep none = some p :=
    foldl_imageEntryStep_last pre post img p hp hpost
  have hne : p ≠ "" := entryPayload_ne_empty hp
  have hext : resolveExtract responseText parse
      = { imageBase64 := some p, fullContent := "" } := by
    simp only [resolveExtract, hresp, extractStandard_mkImagesJson, hfold]
  have hstate : resolveState responseText parse
      = { imageUrl := none, imageBase64 := some p, fullContent := "" } := by
    rw [resolveState, hext]
    simp [strTruthy, hne]
  refine ⟨by rw [hstate], fun fetch => ?_⟩
  rw [hstate]
  simp [resolveBytes, pickImageSource, strTruthy, hne]

/-- C4 witness: two concrete entries; the second payload is resolved. -/
theorem c4_last_entry_wins_witness :
    (resolveState "RESP4" (fun s => if s = "RESP4" then
        some (mkImagesJson [mkEntry "data:image/png;base64,AAAA",
          mkEntry "data:image/png;base64,BBBB"]) else none)).imageBase64 = some "BBBB" :=
  (c4_last_entry_wins [mkEntry "data:image/png;base64,AAAA"] []
    (mkEntry "data:image/png;base64,BBBB") "BBBB"
    (fun s => if s = "RESP4" then
        some (mkImagesJson [mkEntry "data:image/png;base64,AAAA",
          mkEntry "data:image/png;base64,BBBB"]) else none) "RESP4"
    rfl rfl (by intro i hi; simp at hi)).1

/-- C5, counterexample: on a content string carrying both a bare image
URL and a data-URL, both scan patterns are applied and the branch that
consumes the result prefers the base64 payload, so the data-URL wins —
not the URL fetch as claimed. -/
theorem c5_counterexample :
    findImageUrl bothText = some "https://x.com/a.png"
    ∧ findDataUrlPayload bothText = some "QUJD"
    ∧ pickImageSource (resolveState "RESP" parseBoth) = .ok (.fromBase64 "QUJD") :=
  ⟨rfl, rfl, rfl⟩

/-- C5, amended: the text-scan fallback applies both patterns to the
accumulated text; a data-URL match always wins and is decoded directly,
and only when no data-URL matches does a bare image URL match lead to a
fetch of that URL. -/
theorem c5_scan_priority (responseText : String) (parse : String → Option Json) (t : String)
    (hext : resolveExtract responseText parse = { imageBase64 := none, fullContent := t }) :
    (∀ b, findDataUrlPayload t = some b →
        pickImageSource (resolveState responseText parse) = .ok (.fromBase64 b))
    ∧ (findDataUrlPayload t = none → ∀ u, findImageUrl t = some u →
        pickImageSource (resolveState responseText parse) = .ok (.fromUrl u)) := by
  have hstate : resolveState responseText parse = textScan { imageBase64 := none, fullContent := t } := by
    rw [resolveState, hext]
    simp [strTruthy]
  constructor
  · intro b hb
    have hneb : b ≠ "" := findDataUrlPayload_ne_empty hb
    rw [hstate]
    simp [textScan, hb, pickImageSource, strTruthy, hneb]
  · intro hnone u hu
    have hneu : u ≠ "" := findImageUrl_ne_empty hu
    rw [hstate]
    simp [textScan, hnone, hu, pickImageSource, strTruthy, hneu]

/-- C5 witness: the concrete both-pattern content; the data-URL payload
is the one consumed. -/
theorem c5_scan_priority_witness :
    pickImageSource (resolveState "RESP" parseBoth) = .ok (.fromBase64 "QUJD") :=
  (c5_scan_priority "RESP" parseBoth bothText rfl).1 "QUJD" rfl

/-- C6, counterexample: the model test is a case-sensitive substring
match, so an identifier differing only in letter case from the gemini
family token receives no image_config, while the lower-case spelling
does. -/
theorem c6_counterexample :
    (buildGenerateRequestBody "p" "GEMINI-3-PRO-IMAGE" none).image_config = none
    ∧ (buildGenerateRequestBody "p" "gemini-3-pro-image" none).image_config
        = some { image_size := some "1K", aspect_ratio := none } :=
  ⟨rfl, rfl⟩

/-- C6, amended: the request body of a generation or an edit carries
image_config exactly when the model identifier contains gemini or
nano-banana as a case-sensitive substring; when it does and no explicit
config was given, the 1K default is attached. -/
theorem c6_image_config_rule (prompt model base64Image : String) (ic : Option ImageConfig) :
    ((buildGenerateRequestBody prompt model ic).image_config ≠ none
      ↔ (∃ pre post, model.data = pre ++ "gemini".data ++ post)
        ∨ (∃ pre post, model.data = pre ++ "nano-banana".data ++ post))
    ∧ (buildEditRequestBody prompt base64Image model ic).image_config
        = (buildGenerateRequestBody prompt model ic).image_config
    ∧ (wantsImageConfig model = true →
        (buildGenerateRequestBody prompt model none).image_config
          = some { image_size := some "1K", aspect_ratio := none }) := by
  have key : wantsImageConfig model = true
      ↔ (∃ pre post, model.data = pre ++ "gemini".data ++ post)
        ∨ (∃ pre post, model.data = pre ++ "nano-banana".data ++ post) := by
    simp only [wantsImageConfig, jsIncludes, Bool.or_eq_true, containsSub_iff]
  refine ⟨?_, rfl, ?_⟩
  · by_cases h : wantsImageConfig model = true
    · constructor
      · intro _
        exact key.mp h
      · intro _
        simp [buildGenerateRequestBody, h]
    · have h' : wantsImageConfig model = false := by
        cases hw : wantsImageConfig model
        · rfl
        · exact absurd hw h
      simp only [buildGenerateRequestBody, h', Bool.false_eq_true, if_false]
      constructor
      · intro hcon
        exact absurd rfl hcon
      · intro hr
        exact absurd (key.mpr hr) h
  · intro h
    simp [buildGenerateRequestBody, h]

/-- C6 witness: the configured gemini model identifier receives the 1K
default. -/
theorem c6_image_config_rule_witness :
    wantsImageConfig "google/gemini-3-pro-image-preview" = true
    ∧ (buildGenerateRequestBody "p" "google/gemini-3-pro-image-preview" none).image_config
        = some { image_size := some "1K", aspect_ratio := none } :=
  ⟨rfl, (c6_image_config_rule "p" "google/gemini-3-pro-image-preview" "" none).2.2 rfl⟩

/-- C7: in a batch with at least one worker, the result list is the job
list mapped through the per-job runner — so every entry depends only on
its own job — and a job with a falsy prompt maps to the immediate
missing-prompt failing result whose round-trip count is zero (no network
call), in both batch executors. -/
theorem c7_missing_prompt_isolated (jobs : List Job) (conc : Nat) (model size : String)
    (ic : Option ImageConfig) (cfg : Config) (envOf : Job → GenEnv) (genvOf : Job → GlmEnv)
    (hne : jobs ≠ []) (hc : 1 ≤ conc) :
    generateImageBatch jobs conc model ic cfg envOf
        = .ok (jobs.map (fun j => (runBatchJobGen model ic cfg envOf j).1))
    ∧ generateImageGlmBatch jobs conc size cfg genvOf
        = .ok (jobs.map (fun j => (runBatchJobGlm size cfg genvOf j).1))
    ∧ (∀ job : Job, strTruthy job.prompt = false →
        runBatchJobGen model ic cfg envOf job
          = ({ success := false, message := none, filePath := none,
               error := some "缺少 prompt", prompt := job.prompt, model := none }, 0))
    ∧ (∀ job : Job, strTruthy job.prompt = false →
        runBatchJobGlm size cfg genvOf job
          = ({ success := false, message := none, filePath := none,
               error := some "缺少 prompt", prompt := job.prompt, model := none }, 0)) := by
  refine ⟨generateImageBatch_ok model ic cfg envOf jobs conc hne hc,
    generateImageGlmBatch_ok size cfg genvOf jobs conc hne hc, ?_, ?_⟩
  · intro job hj
    simp [runBatchJobGen, hj]
  · intro job hj
    simp [runBatchJobGlm, hj]

/-- C7 witness: the seven-job batch with job 4 missing its prompt, at
concurrency 3. -/
theorem c7_missing_prompt_isolated_witness :
    generateImageBatch sevenJobs 3 "m" none cfg0 (fun _ => envFail)
        = .ok (sevenJobs.map (fun j => (runBatchJobGen "m" none cfg0 (fun _ => envFail) j).1))
    ∧ runBatchJobGen "m" none cfg0 (fun _ => envFail)
        { prompt := none, saveToFilePath := none }
      = ({ success := false, message := none, filePath := none,
           error := some "缺少 prompt", prompt := none, model := none }, 0) :=
  ⟨(c7_missing_prompt_isolated sevenJobs 3 "m" "1280x1280" none cfg0
      (fun _ => envFail) (fun _ => envGlmChain) (by decide) (by decide)).1,
   (c7_missing_prompt_isolated sevenJobs 3 "m" "1280x1280" none cfg0
      (fun _ => envFail) (fun _ => envGlmChain) (by decide) (by decide)).2.2.1
     { prompt := none, saveToFilePath := none } rfl⟩

/-- C8: when the whole response fails to parse as one JSON document, the
fallback splits it into nonblank newline-delimited records, considers
only data-prefixed records, skips [DONE] sentinels and unparsable frames
without error, parses the remaining frames as independent JSON
fragments, and a frame whose incremental delta content carries an inline
image resolves to the bytes of that image. -/
theorem c8_stream_fallback (responseText : String) (parse : String → Option Json)
    (pre post : List String) (l fjson b : String)
    (hjson : parse responseText = none)
    (hlines : (splitNewlines responseText).filter (fun x => jsTrim x ≠ "") = pre ++ l :: post)
    (hskip : ∀ x ∈ pre ++ post, jsStartsWith (jsTrim x) "data:" = false
        ∨ jsTrim (replaceFirst x "data: ") = "[DONE]"
        ∨ parse (replaceFirst x "data: ") = none)
    (hl : jsStartsWith (jsTrim l) "data:" = true)
    (hstrip : replaceFirst l "data: " = fjson)
    (hnd : jsTrim fjson ≠ "[DONE]")
    (hparse : parse fjson = some (streamDeltaFrame b))
    (hb : b ≠ "") :
    resolveState responseText parse
      = { imageUrl := none, imageBase64 := some b, fullContent := "" }
    ∧ ∀ fetch, resolveBytes (resolveState responseText parse) fetch
        = .ok (base64Decode b) := by
  have hpre : ∀ x ∈ pre, jsStartsWith (jsTrim x) "data:" = false
      ∨ jsTrim (replaceFirst x "data: ") = "[DONE]"
      ∨ parse (replaceFirst x "data: ") = none :=
    fun x hx => hskip x (List.mem_append.mpr (Or.inl hx))
  have hpost : ∀ x ∈ post, jsStartsWith (jsTrim x) "data:" = false
      ∨ jsTrim (replaceFirst x "data: ") = "[DONE]"
      ∨ parse (replaceFirst x "data: ") = none :=
    fun x hx => hskip x (List.mem_append.mpr (Or.inr (by simp [hx])))
  have hfold : ((splitNewlines responseText).filter (fun x => jsTrim x ≠ "")).foldl
      (streamLineStep parse) { imageBase64 := none, fullContent := "" }
      = { imageBase64 := some b, fullContent := "" } := by
    rw [hlines, List.foldl_append, foldl_streamLineStep_skip parse pre hpre,
      List.foldl_cons, streamLineStep_frame parse _ l fjson b hl hstrip hnd hparse]
    exact foldl_streamLineStep_skip parse post hpost _
  have hext : resolveExtract responseText parse
      = { imageBase64 := some b, fullContent := "" } := by
    simp only [resolveExtract, hjson]
    exact hfold
  have hstate : resolveState responseText parse
      = { imageUrl := none, imageBase64 := some b, fullContent := "" } := by
    rw [resolveState, hext]
    simp [strTruthy, hb]
  refine ⟨hstate, fun fetch => ?_⟩
  rw [hstate]
  simp [resolveBytes, pickImageSource, strTruthy, hb]

/-- C8 witness: a concrete three-record stream with a noise line, one
image-carrying data frame, and a terminal sentinel. -/
theorem c8_stream_fallback_witness :
    resolveState streamText parseFrame
      = { imageUrl := none, imageBase64 := some "QUJD", fullContent := "" } :=
  (c8_stream_fallback streamText parseFrame ["noise line"] ["data: [DONE]"]
    "data: FRAME" "FRAME" "QUJD" rfl (by decide)
    (by
      intro x hx
      simp only [List.cons_append, List.nil_append, List.mem_cons,
        List.not_mem_nil, or_false] at hx
      rcases hx with rfl | rfl
      · exact Or.inl (by decide)
      · exact Or.inr (Or.inl (by decide)))
    (by decide) rfl (by decide) rfl (by decide)).1

/-- C9: the executor drains a private copy of the submitted list: after
any number of worker iterations the caller-visible argument array is
unchanged, and after a full drain the queue is empty and one result per
job was collected. -/
theorem c9_caller_array_preserved (jobs : List Job) (runJob : Job → GenResult × Nat) :
    (∀ n, (execRun runJob n (execInit jobs)).batchRequests = jobs)
    ∧ (execRun runJob jobs.length (execInit jobs)).queue = []
    ∧ (execRun runJob jobs.length (execInit jobs)).results
        = jobs.map (fun j => (runJob j).1) := by
  have hinit : execInit jobs
      = { batchRequests := jobs, queue := jobs, results := [] } := rfl
  have hdrain := execRun_drain runJob jobs jobs []
  refine ⟨fun n => execRun_batchRequests runJob n (execInit jobs), ?_, ?_⟩
  · rw [hinit, hdrain]
  · rw [hinit, hdrain]
    simp

/-- C10: a 2xx direct-provider response parsed as JSON but lacking a
truthy data[0].url makes generateImageGlm return the failing
glm-image-tagged result after a single round trip instead of throwing,
and a successful GLM result is only ever produced from a response
passing the data[0].url shape test — the multi-strategy chain is never
consulted. -/
theorem c10_glm_url_only (prompt : String) (save : Option String) (size : String)
    (cfg : Config) (env : GlmEnv) :
    (∀ data, env.ok = true → env.json = .ok data → glmHasUrl data = false →
        generateImageGlm prompt save size cfg env
          = (glmFailure "智谱 API 返回格式异常，未找到图像 URL" prompt, 1))
    ∧ ((generateImageGlm prompt save size cfg env).1.success = true →
        env.ok = true ∧ ∃ data, env.json = .ok data ∧ glmHasUrl data = true) := by
  constructor
  · intro data hok hjsonv hurl
    simp [generateImageGlm, hok, hjsonv, hurl]
  · intro hs
    cases hok : env.ok
    case false =>
      exfalso
      simp [generateImageGlm, hok, glmFailure] at hs
    case true =>
      refine ⟨rfl, ?_⟩
      cases hjsonv : env.json with
      | error m =>
        exfalso
        simp [generateImageGlm, hok, hjsonv, glmFailure] at hs
      | ok data =>
        refine ⟨data, rfl, ?_⟩
        cases hurl : glmHasUrl data
        case false =>
          exfalso
          simp [generateImageGlm, hok, hjsonv, hurl, glmFailure] at hs
        case true => rfl

/-- C10 witness: a response document the conversational multi-strategy
chain would resolve (its message.images entry holds a valid data-URL)
still yields the shape failure, because only data[0].url is accepted. -/
theorem c10_glm_url_only_witness :
    strTruthy (extractStandard glmChainDoc).imageBase64 = true
    ∧ generateImageGlm "p" none "1280x1280" cfg0 envGlmChain
        = (glmFailure "智谱 API 返回格式异常，未找到图像 URL" "p", 1) :=
  ⟨rfl, (c10_glm_url_only "p" none "1280x1280" cfg0 envGlmChain).1 glmChainDoc rfl rfl rfl⟩

end PanPan
